import Mathlib

/-!
Verification of the AutoProcure quote-extraction core against its
natural-language specification.

The Python modules `backend/app/ai_processor.py`, `backend/app/currency_handler.py`,
`backend/app/obfuscation_detector.py` and `backend/app/math_validator.py` are
shallowly embedded below.  Numeric values (Python floats) are modelled as
rationals (ℚ); Python strings are modelled as Lean strings, processed as
`List Char`.  Python `re` searches are modelled by a small token-pattern
matcher (`PTok` / `matchToks`) that implements exactly the constructs used by
the source's patterns: case-insensitive literals, character-class runs with
greedy or lazy quantifiers, optional characters, literal alternations, the
numeric token `[\d,]+\.?\d*`, and the end anchor.  Searches scan start
positions left to right and try quantifier extents in the regex engine's
preference order, which reproduces Python's leftmost-match semantics for the
patterns appearing in the source.
-/

set_option maxRecDepth 1000000

namespace AutoProcure

/-! ## Character and string utilities -/

/-- Python `\s` / `str.strip()` whitespace (ASCII subset used by the inputs). -/
def isWsChar (c : Char) : Bool :=
  c = ' ' || c = '\t' || c = '\n' || c = '\r' || c = '\x0b' || c = '\x0c'

/-- ASCII decimal digit, Python `\d` on the documents handled here. -/
def isDigitCh (c : Char) : Bool :=
  '0' ≤ c && c ≤ '9'

/-- ASCII letter. -/
def isAlphaCh (c : Char) : Bool :=
  ('a' ≤ c && c ≤ 'z') || ('A' ≤ c && c ≤ 'Z')

/-- Lower-case a character (ASCII, as the source's `str.lower()` uses on these texts). -/
def lowCh (c : Char) : Char := c.toLower

/-- Lower-case a character list. -/
def lowStr (s : List Char) : List Char := s.map lowCh

/-- Does `s` start with `pat` (case-sensitive)? -/
def startsWithL : List Char → List Char → Bool
  | [], _ => true
  | _ :: _, [] => false
  | p :: ps, c :: cs => p = c && startsWithL ps cs

/-- Does `s` start with `pat`, comparing case-insensitively? -/
def startsWithCI : List Char → List Char → Bool
  | [], _ => true
  | _ :: _, [] => false
  | p :: ps, c :: cs => lowCh p = lowCh c && startsWithCI ps cs

/-- Python `pat in s`: substring containment (case-sensitive). -/
def hasSubstr (pat : List Char) : List Char → Bool
  | [] => startsWithL pat []
  | c :: cs => startsWithL pat (c :: cs) || hasSubstr pat cs

/-- Substring containment of `pat` in `s`, both taken case-insensitively. -/
def hasSubstrCI (pat : List Char) : List Char → Bool
  | [] => startsWithCI pat []
  | c :: cs => startsWithCI pat (c :: cs) || hasSubstrCI pat cs

/-- Python `pat in s` on Lean strings (case-sensitive), as Python's `in`. -/
def strContains (s pat : String) : Bool :=
  hasSubstr pat.toList s.toList

/-- Python `str.strip()`: drop leading and trailing whitespace. -/
def pyStrip (s : List Char) : List Char :=
  ((s.dropWhile isWsChar).reverse.dropWhile isWsChar).reverse

/-- Python `re.sub(r'\s+', ' ', text)`: collapse every whitespace run to one space
(fuel-driven structural recursion; the fuel, the input length, never runs
out because each step consumes at least one character). -/
def collapseWsAux : ℕ → List Char → List Char
  | 0, s => s
  | _ + 1, [] => []
  | fuel + 1, c :: cs =>
    if isWsChar c then
      ' ' :: collapseWsAux fuel (cs.dropWhile isWsChar)
    else
      c :: collapseWsAux fuel cs

/-- Python `re.sub(r'\s+', ' ', text)`. -/
def collapseWs (s : List Char) : List Char :=
  collapseWsAux s.length s

/-- Python `str.split('\n')`. -/
def splitNl (s : List Char) : List (List Char) :=
  (s.foldr
    (fun c acc =>
      match acc with
      | (cur, done) =>
        if c = '\n' then ([], cur :: done) else (c :: cur, done))
    ([], [])).1 ::
  (s.foldr
    (fun c acc =>
      match acc with
      | (cur, done) =>
        if c = '\n' then ([], cur :: done) else (c :: cur, done))
    ([], [])).2

/-- Python `str.isdigit()` (ASCII): nonempty and all decimal digits. -/
def pyIsDigit (s : List Char) : Bool :=
  !s.isEmpty && s.all isDigitCh

/-- Python `str.title()` restricted to ASCII words: first letter of each
alphabetic run upper-cased, the rest lower-cased. -/
def pyTitle (s : List Char) : List Char :=
  (s.foldl
    (fun acc c =>
      match acc with
      | (out, prevAlpha) =>
        if isAlphaCh c then
          (out ++ [if prevAlpha then c.toLower else c.toUpper], true)
        else
          (out ++ [c], false))
    (([] : List Char), false)).1

/-! ## Rational-number helpers mirroring Python numerics -/

/-- Python `round(x)`: round half to even (banker's rounding), on the ideal
rational value of the float. -/
def pyRound (x : ℚ) : ℤ :=
  let f : ℤ := ⌊x⌋
  let r : ℚ := x - (f : ℚ)
  if r < 1/2 then f
  else if 1/2 < r then f + 1
  else if f % 2 = 0 then f else f + 1

/-- Python `round(x, 2)` on the ideal rational value. -/
def round2 (x : ℚ) : ℚ :=
  (pyRound (x * 100) : ℚ) / 100

/-- Parse an unsigned integer from a digit list (the digits are already
validated by the match that produced them). -/
def digitsToNat (s : List Char) : ℕ :=
  s.foldl (fun acc c => acc * 10 + (c.toNat - '0'.toNat)) 0

/-- Python `float(tok)` after `tok.replace(',', '')`, for tokens produced by the
numeric token `[\d,]+\.?\d*`: accepts `d+`, `d+.`, `d+.d+`, `.d+`; anything
without a digit (such as a bare comma) raises `ValueError`, modelled as `none`. -/
def parseFloatTok (tok : List Char) : Option ℚ :=
  let t := tok.filter (fun c => c ≠ ',')
  let intPart := t.takeWhile isDigitCh
  let rest := t.drop intPart.length
  match rest with
  | [] => if intPart.isEmpty then none else some (digitsToNat intPart : ℚ)
  | '.' :: fracs =>
    if fracs.all isDigitCh ∧ (¬ intPart.isEmpty ∨ ¬ fracs.isEmpty) then
      some ((digitsToNat intPart : ℚ) +
        (digitsToNat fracs : ℚ) / ((10 : ℚ) ^ fracs.length))
    else none
  | _ => none

/-- Python `int(tok)`: succeeds only on a pure digit string. -/
def parseIntTok (tok : List Char) : Option ℤ :=
  if pyIsDigit tok then some (digitsToNat tok : ℤ) else none

/-! ## Token-pattern engine

The source uses `re` with a small set of constructs; a pattern is modelled as
a list of tokens, matched with backtracking in the engine's preference order
(greedy quantifiers try longer extents first, lazy ones shorter first,
alternatives are tried in written order). -/

/-- One token of a compiled pattern. -/
inductive PTok where
  /-- Literal string, compared case-insensitively when `ci` is true. -/
  | plit (s : String) (ci : Bool)
  /-- Exactly one character of a class. -/
  | pone (f : Char → Bool)
  /-- Zero or one character of a class, greedy. -/
  | popt (f : Char → Bool)
  /-- A run of class characters with a minimum count; `lazyQ` selects lazy
  (`+?`) versus greedy (`+`) matching; `cap` records the run as a group. -/
  | prun (f : Char → Bool) (minN : ℕ) (lazyQ : Bool) (cap : Bool)
  /-- Alternation of literal strings, tried in order. -/
  | palt1 (alts : List String) (ci : Bool)
  /-- The numeric token `[\d,]+\.?\d*`, matched greedily as an atom; `cap`
  records it as a group. -/
  | pamt (cap : Bool)
  /-- End-of-string anchor `$` (the matched lines never end in a newline). -/
  | pend

/-- Length of the maximal run of class characters at the head of `s`. -/
def runLen (f : Char → Bool) : List Char → ℕ
  | [] => 0
  | c :: cs => if f c then runLen f cs + 1 else 0

/-- Match the token `[\d,]+\.?\d*` at the head of `s`, greedily:
the token text and its length. -/
def amtTok (s : List Char) : Option (List Char × ℕ) :=
  let isDC := fun c => isDigitCh c || c = ','
  let r1 := runLen isDC s
  if r1 = 0 then none
  else
    match s.drop r1 with
    | '.' :: r2 =>
      let fr := runLen isDigitCh r2
      some (s.take (r1 + 1 + fr), r1 + 1 + fr)
    | _ => some (s.take r1, r1)

/-- Match a token list against a prefix of `s`; returns the total matched
length and the captured groups, honouring each quantifier's preference
order (first success wins, as in Python's backtracking search). -/
def matchToks : List PTok → List Char → Option (ℕ × List (List Char))
  | [], _ => some (0, [])
  | PTok.plit str ci :: ts, s =>
    let p := str.toList
    if (if ci then startsWithCI p s else startsWithL p s) then
      (matchToks ts (s.drop p.length)).map (fun r => (p.length + r.1, r.2))
    else none
  | PTok.pone f :: ts, s =>
    match s with
    | [] => none
    | c :: cs =>
      if f c then (matchToks ts cs).map (fun r => (1 + r.1, r.2)) else none
  | PTok.popt f :: ts, s =>
    match s with
    | [] => matchToks ts s
    | c :: cs =>
      if f c then
        match (matchToks ts cs).map (fun r => (1 + r.1, r.2)) with
        | some r => some r
        | none => matchToks ts s
      else matchToks ts s
  | PTok.prun f minN lazyQ cap :: ts, s =>
    let m := runLen f s
    if minN ≤ m then
      let ks := (List.range (m - minN + 1)).map (fun j => minN + j)
      (if lazyQ then ks else ks.reverse).findSome? (fun k =>
        (matchToks ts (s.drop k)).map
          (fun r => (k + r.1, if cap then s.take k :: r.2 else r.2)))
    else none
  | PTok.palt1 alts ci :: ts, s =>
    alts.findSome? (fun a =>
      let p := a.toList
      if (if ci then startsWithCI p s else startsWithL p s) then
        (matchToks ts (s.drop p.length)).map (fun r => (p.length + r.1, r.2))
      else none)
  | PTok.pamt cap :: ts, s =>
    match amtTok s with
    | none => none
    | some (tok, k) =>
      (matchToks ts (s.drop k)).map
        (fun r => (k + r.1, if cap then tok :: r.2 else r.2))
  | PTok.pend :: ts, s =>
    if s.isEmpty then matchToks ts s else none

/-- Python `re.search` over one or more whole patterns: scan start positions left to
right and, at each position, try the patterns in order (this reproduces
Python's leftmost-match rule, including for a top-level alternation split
into several patterns).  Returns (start, length, groups). -/
def searchMultiAux (pats : List (List PTok)) : ℕ → List Char → Option (ℕ × ℕ × List (List Char))
  | i, s =>
    match pats.findSome? (fun p => matchToks p s) with
    | some (len, caps) => some (i, len, caps)
    | none =>
      match s with
      | [] => none
      | _ :: rest => searchMultiAux pats (i + 1) rest

/-- Python `re.search` for a list of alternative patterns. -/
def searchMulti (pats : List (List PTok)) (s : List Char) : Option (ℕ × ℕ × List (List Char)) :=
  searchMultiAux pats 0 s

/-- Python `re.search` for a single pattern. -/
def searchTks (pat : List PTok) (s : List Char) : Option (ℕ × ℕ × List (List Char)) :=
  searchMulti [pat] s

/-- Python `re.sub(pat, '', s)` for a pattern split into top-level alternatives:
delete every non-overlapping leftmost match, resuming after each span. -/
def subAllAux (pats : List (List PTok)) : ℕ → List Char → List Char
  | 0, s => s
  | _ + 1, [] => []
  | fuel + 1, c :: cs =>
    match pats.findSome? (fun p => matchToks p (c :: cs)) with
    | some (len, _) =>
      if len = 0 then c :: subAllAux pats fuel cs
      else subAllAux pats fuel (cs.drop (len - 1))
    | none => c :: subAllAux pats fuel cs

/-- Python `re.sub(pat, '', s)` for a list of alternative patterns. -/
def subAllMulti (pats : List (List PTok)) (s : List Char) : List Char :=
  subAllAux pats s.length s

/-- Python `re.sub(pat, '', s)` for a single pattern. -/
def subAllToks (pat : List PTok) (s : List Char) : List Char :=
  subAllMulti [pat] s

/-- Python `re.split(pat, s)`: segments between non-overlapping leftmost matches. -/
def splitToksAux (pat : List PTok) : ℕ → List Char → List Char → List (List Char)
  | 0, cur, s => [cur.reverse ++ s]
  | _ + 1, cur, [] => [cur.reverse]
  | fuel + 1, cur, c :: cs =>
    match matchToks pat (c :: cs) with
    | some (len, _) =>
      if len = 0 then splitToksAux pat fuel (c :: cur) cs
      else cur.reverse :: splitToksAux pat fuel [] (cs.drop (len - 1))
    | none => splitToksAux pat fuel (c :: cur) cs

/-- Python `re.split(pat, s)`. -/
def splitToks (pat : List PTok) (s : List Char) : List (List Char) :=
  splitToksAux pat s.length [] s

/-- Pattern `\s*`. -/
def wsRun0 : PTok := PTok.prun isWsChar 0 false false

/-- Pattern `\s+`. -/
def wsRun1 : PTok := PTok.prun isWsChar 1 false false

/-- Pattern `(\d+)` as a capture when `cap`. -/
def digRun1 (cap : Bool) : PTok := PTok.prun isDigitCh 1 false cap

/-- Pattern `\$?`. -/
def optDollar : PTok := PTok.popt (fun c => c = '$')

/-- Case-insensitive literal. -/
def litCI (s : String) : PTok := PTok.plit s true

/-- Pattern `.*?` under `re.DOTALL`: a lazy run of arbitrary characters. -/
def anyLazy : PTok := PTok.prun (fun _ => true) 0 true false

/-! ## `_clean_quote_text` -/

/-- The instruction-removal patterns of `_clean_quote_text`, in source order.
A trailing `.*?` matches the empty string under the engine's lazy preference,
so it is omitted from the compiled token lists. -/
def instructionPats : List (List PTok) :=
  [ [litCI "unitPrice", wsRun1, digRun1 false, PTok.pone (fun c => c = '.'),
     wsRun0, litCI "Extract vendor name"],
    [litCI "Look for payment terms"],
    [litCI "If multiple items exist"],
    [litCI "Choose", anyLazy, litCI "recommendation"],
    [litCI "Extract", anyLazy, litCI "from the document"] ]

/-- Python `_clean_quote_text`: strip embedded instruction text, collapse whitespace
runs to single spaces, and strip the ends. -/
def cleanQuoteText (s : List Char) : List Char :=
  pyStrip (collapseWs (instructionPats.foldl (fun acc p => subAllToks p acc) s))

/-! ## `_detect_document_type` -/

/-- Receipt indicator keywords. -/
def receiptIndicators : List String :=
  ["receipt", "payment received", "paid", "total paid", "amount paid",
   "thank you for your purchase", "transaction", "sale", "purchase"]

/-- Invoice indicator keywords. -/
def invoiceIndicators : List String :=
  ["invoice", "bill", "amount due", "please pay", "payment due",
   "invoice number", "bill to", "ship to"]

/-- Quote indicator keywords. -/
def quoteIndicators : List String :=
  ["quote", "quotation", "proposal", "estimate", "pricing",
   "vendor", "supplier", "terms and conditions", "valid until",
   "quote number", "proposal number"]

/-- Python `_detect_document_type`: first indicator set that matches the lower-cased
text wins, in the order receipt, invoice, quote; defaults to `"quote"`. -/
def detectDocumentType (t : List Char) : String :=
  let tl := lowStr t
  if receiptIndicators.any (fun i => hasSubstr i.toList tl) then "receipt"
  else if invoiceIndicators.any (fun i => hasSubstr i.toList tl) then "invoice"
  else if quoteIndicators.any (fun i => hasSubstr i.toList tl) then "quote"
  else "quote"

/-! ## `_detect_currency` and `_convert_currency` (ai_processor) -/

/-- The currency detection table of `_detect_currency`, in dict insertion
order.  Each regex there is a literal or a literal with an optional plural
(`dollars?`, `euros?`, ...); an optional trailing letter never affects
whether a search succeeds, so each pattern is reduced to its mandatory stem
and `re.search(..., text.upper(), re.IGNORECASE)` becomes containment in the
lower-cased text. -/
def currencyDetectTable : List (String × List String) :=
  [("USD", ["$", "usd", "us$", "dollar", "buck"]),
   ("EUR", ["€", "eur", "euro"]),
   ("GBP", ["£", "gbp", "pound"]),
   ("CAD", ["cad", "c$", "canadian dollar"]),
   ("AUD", ["aud", "a$", "australian dollar"]),
   ("JPY", ["¥", "jpy", "yen"]),
   ("INR", ["₹", "inr", "rupee"]),
   ("CNY", ["¥", "cny", "rmb", "yuan"])]

/-- Python `_detect_currency`: first currency whose patterns match; default USD. -/
def detectCurrency (t : List Char) : String :=
  let tl := lowStr t
  match currencyDetectTable.findSome?
      (fun p => if p.2.any (fun pat => hasSubstr pat.toList tl) then some p.1 else none) with
  | some c => c
  | none => "USD"

/-- The configured base currency (`BASE_CURRENCY` defaults to USD). -/
def baseCurrency : String := "USD"

/-- The static exchange-rate table of `AIProcessor.__init__`. -/
def exchangeRatesAI : List (String × ℚ) :=
  [("USD", 1), ("EUR", 17/20), ("GBP", 73/100), ("CAD", 5/4),
   ("AUD", 27/20), ("JPY", 110), ("INR", 75), ("CNY", 13/2)]

/-! ## Items and the validator -/

/-- A major math correction (`correction_info` / `MathCorrection`). -/
structure MathCorrectionM where
  item : String
  originalTotal : ℚ
  correctedTotal : ℚ
  errorPercentage : ℚ
deriving Repr, DecidableEq

/-- A candidate line item as built by the extraction strategies (a Python
dict with these keys; `correction_info` is optional). -/
structure RawItem where
  sku : String
  description : String
  quantity : ℚ
  unitPrice : ℚ
  deliveryTime : String
  total : ℚ
  correctionInfo : Option MathCorrectionM := none
deriving Repr, DecidableEq

/-- A Python number that is either an `int` or a `float`; the validator's
`isinstance(quantity, float)` check distinguishes the two. -/
inductive PyNum where
  | pint (n : ℤ)
  | pfloat (q : ℚ)
deriving Repr, DecidableEq

/-- The numeric value of a `PyNum`. -/
def PyNum.val : PyNum → ℚ
  | .pint n => n
  | .pfloat q => q

/-- Zero-pad formatting `f"{n:03d}"` for `0 ≤ n < 1000`. -/
def pad3 (n : ℤ) : String :=
  let m := n.toNat
  if m < 10 then "00" ++ toString m
  else if m < 100 then "0" ++ toString m
  else toString m

/-- Python `f"ITEM-{hash(description) % 1000:03d}"`.  Python's string hash is
randomized per process, so the hash function is a parameter; no settled
property depends on it. -/
def skuOfHash (hash : String → ℤ) (d : String) : String :=
  "ITEM-" ++ pad3 ((hash d) % 1000)

/-- Python `_validate_item_values`. -/
def validateItemValues (quantity : ℤ) (unitPrice : ℚ) (description : List Char) : Bool :=
  if quantity ≤ 0 ∨ 100000 < quantity then false
  else if unitPrice ≤ 0 ∨ 100000 < unitPrice then false
  else if description.length < 2 ∨ pyIsDigit description then false
  else true

/-- Python `_validate_and_correct_item`. -/
def validateAndCorrectItem (hash : String → ℤ) (description : String)
    (quantity : PyNum) (unitPrice totalPrice : ℚ) : Option RawItem :=
  let qn : Option ℤ :=
    match quantity with
    | .pfloat q => if q < 1/10 then none else some (pyRound q)
    | .pint n => some n
  match qn with
  | none => none
  | some n =>
    if n ≤ 0 ∨ 100000 < n then none
    else if unitPrice < -100000 ∨ 100000 < unitPrice then none
    else if description.length < 2 then none
    else
      let expectedTotal : ℚ := (n : ℚ) * unitPrice
      let discrepancy := |totalPrice - expectedTotal|
      let percentageError : ℚ :=
        if expectedTotal ≠ 0 then discrepancy / |expectedTotal| * 100 else 0
      let corr : Option MathCorrectionM :=
        if 20 < percentageError then
          some { item := description, originalTotal := totalPrice,
                 correctedTotal := expectedTotal, errorPercentage := percentageError }
        else none
      let total' := if 5 < percentageError then expectedTotal else totalPrice
      if ¬ validateItemValues n unitPrice description.toList then none
      else some { sku := skuOfHash hash description, description := description,
                  quantity := (n : ℚ), unitPrice := unitPrice,
                  deliveryTime := "7-10 days", total := total',
                  correctionInfo := corr }

/-- Python `_convert_currency`: multiply by the static rate and round to 2 decimals. -/
def convertCurrency (items : List RawItem) (fromCur : String) : List RawItem :=
  if fromCur = baseCurrency then items
  else
    let rate := (exchangeRatesAI.lookup fromCur).getD 1
    items.map (fun it =>
      { it with unitPrice := round2 (it.unitPrice * rate),
                total := round2 (it.total * rate) })

/-! ## `_extract_terms` -/

/-- Class `[A-Za-z0-9\s]`. -/
def alnumWsCh (c : Char) : Bool := isAlphaCh c || isDigitCh c || isWsChar c

/-- Pattern `payment[:\-]\s*([A-Za-z0-9\s]+)`. -/
def paymentPat1 : List PTok :=
  [litCI "payment", PTok.pone (fun c => c = ':' || c = '-'), wsRun0,
   PTok.prun alnumWsCh 1 false true]

/-- Pattern `net\s+(\d+)`. -/
def paymentPat2 : List PTok := [litCI "net", wsRun1, digRun1 true]

/-- Pattern `(\d+)\s+days`. -/
def paymentPat3 : List PTok := [digRun1 true, wsRun1, litCI "days"]

/-- Pattern `warranty[:\-]\s*([A-Za-z0-9\s]+)`. -/
def warrantyPat1 : List PTok :=
  [litCI "warranty", PTok.pone (fun c => c = ':' || c = '-'), wsRun0,
   PTok.prun alnumWsCh 1 false true]

/-- Pattern `(\d+)\s+year[s]?\s+warranty`. -/
def warrantyPat2 : List PTok :=
  [digRun1 true, wsRun1, litCI "year", PTok.popt (fun c => lowCh c = 's'),
   wsRun1, litCI "warranty"]

/-- First group of the first pattern in the list that matches, stripped. -/
def firstGroupOf (pats : List (List PTok)) (t : List Char) : Option (List Char) :=
  pats.findSome? (fun p =>
    match searchTks p t with
    | some (_, _, g :: _) => some (pyStrip g)
    | _ => none)

/-- Python `_extract_terms`: payment and warranty, first pattern match wins, with
defaults `"Net 30"` and `"Standard warranty"`. -/
def extractTerms (t : List Char) : String × String :=
  let payment :=
    match firstGroupOf [paymentPat1, paymentPat2, paymentPat3] t with
    | some g => String.mk g
    | none => "Net 30"
  let warranty :=
    match firstGroupOf [warrantyPat1, warrantyPat2] t with
    | some g => String.mk g
    | none => "Standard warranty"
  (payment, warranty)

/-! ## `_intelligent_item_extraction` -/

/-- Python `re.findall(r'\$?([\d,]+\.?\d*)', line)` (and likewise
`re.findall(r'[\d,]+\.?\d*', line)`): the captured group is the numeric token,
and the optional dollar sign changes neither the group nor the scan
progression, so both reduce to scanning maximal numeric tokens. -/
def scanAmountsAux : ℕ → List Char → List (List Char)
  | 0, _ => []
  | _ + 1, [] => []
  | fuel + 1, c :: cs =>
    if isDigitCh c || c = ',' then
      match amtTok (c :: cs) with
      | some (tok, k) => tok :: scanAmountsAux fuel ((c :: cs).drop k)
      | none => scanAmountsAux fuel cs
    else scanAmountsAux fuel cs

/-- All numeric tokens of a line, leftmost first, non-overlapping. -/
def scanAmounts (s : List Char) : List (List Char) :=
  scanAmountsAux s.length s

/-- Pattern `\$?([\d,]+\.?\d*)\s*x\s*(\d+)\s*=\s*\$?([\d,]+\.?\d*)` (searched without
`re.IGNORECASE` in the source). -/
def xFormatPat : List PTok :=
  [optDollar, PTok.pamt true, wsRun0, PTok.plit "x" false, wsRun0,
   digRun1 true, wsRun0, PTok.plit "=" false, wsRun0, optDollar, PTok.pamt true]

/-- Pattern `(?:unit\s+price|price|cost)\s*:?\s*\$?([\d,]+\.?\d*)`, as the three
alternative whole patterns in alternation order. -/
def unitPricePats : List (List PTok) :=
  [[litCI "unit", wsRun1, litCI "price"], [litCI "price"], [litCI "cost"]].map
    (fun h => h ++ [wsRun0, PTok.popt (fun c => c = ':'), wsRun0, optDollar, PTok.pamt true])

/-- Pattern `(?:total|amount|sum)\s*:?\s*\$?([\d,]+\.?\d*)`. -/
def totalPricePats : List (List PTok) :=
  [[litCI "total"], [litCI "amount"], [litCI "sum"]].map
    (fun h => h ++ [wsRun0, PTok.popt (fun c => c = ':'), wsRun0, optDollar, PTok.pamt true])

/-- Pattern `(?:quantity|qty|qty\.?)\s*:?\s*(\d+)`. -/
def qtyPats : List (List PTok) :=
  [[litCI "quantity"], [litCI "qty"], [litCI "qty", PTok.popt (fun c => c = '.')]].map
    (fun h => h ++ [wsRun0, PTok.popt (fun c => c = ':'), wsRun0, digRun1 true])

/-- Python `re.search(r'Item:\s*([^:]+)', description)` (case-sensitive). -/
def itemNamePat : List PTok :=
  [PTok.plit "Item:" false, wsRun0, PTok.prun (fun c => c ≠ ':') 1 false true]

/-- Python `re.sub(r'\s+(?:quantity|qty|qty\.?|unit\s+price|price|cost|total|amount|sum)\s*$', ...)`,
as whole-pattern alternatives in alternation order. -/
def suffixCleanupPats : List (List PTok) :=
  [[litCI "quantity"], [litCI "qty"], [litCI "qty", PTok.popt (fun c => c = '.')],
   [litCI "unit", wsRun1, litCI "price"], [litCI "price"], [litCI "cost"],
   [litCI "total"], [litCI "amount"], [litCI "sum"]].map
    (fun kw => wsRun1 :: kw ++ [wsRun0, PTok.pend])

/-- The stop words that make the strategies skip a line. -/
def skipWordsExtraction : List String :=
  ["vendor", "supplier", "quote", "total", "subtotal", "date",
   "payment", "delivery", "terms"]

/-- The item-shaped tokens that rescue a line from the stop-word skip. -/
def itemInfoWords : List String :=
  ["item", "quantity", "price", "sku", "description"]

/-- The stop-word skip test shared by both branches of the strategy. -/
def skipLine (lineClean : List Char) : Bool :=
  let ll := lowStr lineClean
  skipWordsExtraction.any (fun w => hasSubstr w.toList ll) &&
  ¬ itemInfoWords.any (fun w => hasSubstr w.toList ll)

/-- Python `line_clean.find('$')` followed by `if first_dollar > 0`:
the stripped text before the first dollar sign, when it is nonempty
and a dollar sign exists. -/
def descBeforeDollar (lineClean : List Char) : Option (List Char) :=
  let idx := (lineClean.takeWhile (fun c => c ≠ '$')).length
  if idx = 0 then none
  else if idx = lineClean.length then none
  else some (pyStrip (lineClean.take idx))

/-- Python `re.sub(r'^[A-Za-z]+:\s*', '', s)`: drop one leading field tag. -/
def stripFieldTag1 (s : List Char) : List Char :=
  let a := runLen isAlphaCh s
  if a = 0 then s
  else
    match s.drop a with
    | ':' :: rest => rest.dropWhile isWsChar
    | _ => s

/-- Python `re.sub(r'^[A-Za-z]+\s+[A-Za-z]+:\s*', '', s)`: drop a leading two-word
field tag. -/
def stripFieldTag2 (s : List Char) : List Char :=
  let a := runLen isAlphaCh s
  if a = 0 then s
  else
    let s1 := s.drop a
    let w := runLen isWsChar s1
    if w = 0 then s
    else
      let s2 := s1.drop w
      let b := runLen isAlphaCh s2
      if b = 0 then s
      else
        match s2.drop b with
        | ':' :: rest => rest.dropWhile isWsChar
        | _ => s

/-- The description post-processing shared by the two intelligent-strategy
sub-branches: leading field-tag removal, strip, `Item:` re-extraction for
over-long descriptions, and trailing field-name cleanup. -/
def cleanDescriptionB (d0 : List Char) : List Char :=
  let d1 := stripFieldTag1 d0
  let d2 := stripFieldTag2 d1
  let d3 := pyStrip d2
  let d4 :=
    if 50 < d3.length then
      match searchTks itemNamePat d3 with
      | some (_, _, g :: _) => pyStrip g
      | _ => d3
    else d3
  subAllMulti suffixCleanupPats d4

/-- Python `re.split(r'Item:\s*', text)` (case-sensitive). -/
def itemSplitPat : List PTok := [PTok.plit "Item:" false, wsRun0]

/-- One section of the single-long-line branch of
`_intelligent_item_extraction` (no validator call in this branch; quantity
may be a non-integral ratio).  A parse failure models the caught
per-section exception and leaves the accumulator unchanged. -/
def processSectionA (items : List RawItem) (sect : List Char) : List RawItem :=
  let lineClean := "Item: ".toList ++ pyStrip sect
  if skipLine lineClean then items
  else if lineClean.contains '$' && lineClean.any isDigitCh then
    let amounts := scanAmounts lineClean
    if amounts.isEmpty then items
    else if 2 ≤ amounts.length then
      let parsed : Option (ℚ × ℚ × ℚ) :=
        match searchTks xFormatPat lineClean with
        | some (_, _, [g1, g2, g3]) =>
          match parseFloatTok g1, parseFloatTok g3 with
          | some u, some t => some (u, (digitsToNat g2 : ℚ), t)
          | _, _ => none
        | _ =>
          match parseFloatTok (amounts.headD []), parseFloatTok (amounts.getLastD []) with
          | some u, some t =>
            let q : ℚ :=
              if 0 < u then
                let cq := t / u
                if 1/10 ≤ cq ∧ cq ≤ 10000 then cq else 1
              else 1
            some (u, q, t)
          | _, _ => none
      match parsed with
      | none => items
      | some (u, q, t) =>
        match descBeforeDollar lineClean with
        | none => items
        | some d0 =>
          let d := pyStrip (stripFieldTag1 d0)
          if 3 ≤ d.length then
            items ++ [{ sku := "ITEM-" ++ pad3 (items.length + 1),
                        description := String.mk d, quantity := q,
                        unitPrice := u, deliveryTime := "7-10 days",
                        total := t }]
          else items
    else items
  else items

/-- One line of the multi-line branch of `_intelligent_item_extraction`.
The state threads the Python local `quantity`, which leaks across loop
iterations: reading it before any assignment raises `UnboundLocalError`
(state `none`), which the per-line handler turns into a skip. -/
def processLineB (hash : String → ℤ) (st : Option PyNum × List RawItem)
    (line : List Char) : Option PyNum × List RawItem :=
  let qs := st.1
  let items := st.2
  let lineClean := pyStrip line
  if lineClean.isEmpty || lineClean.length < 5 then (qs, items)
  else if skipLine lineClean then (qs, items)
  else if lineClean.contains '$' && lineClean.any isDigitCh then
    let allNumbers := scanAmounts lineClean
    if allNumbers.isEmpty then (qs, items)
    else
      let amounts := scanAmounts lineClean
      if amounts.isEmpty then (qs, items)
      else if 2 ≤ amounts.length then
        -- resolve unit price / total, updating the `quantity` local as the
        -- source does, then fall through to the shared tail
        let tail := fun (qs' : Option PyNum) (u t : ℚ) =>
          match qs' with
          | none => (none, items)  -- `if quantity == 1` with `quantity` unbound
          | some q0 =>
            let q1 : PyNum :=
              if q0.val = 1 then
                match searchMulti qtyPats lineClean with
                | some (_, _, g :: _) => PyNum.pint (digitsToNat g)
                | _ =>
                  if 0 < u then
                    let cq := t / u
                    if 1/10 ≤ cq ∧ cq ≤ 10000 then PyNum.pfloat cq else q0
                  else q0
              else q0
            match descBeforeDollar lineClean with
            | none => (some q1, items)
            | some d0 =>
              let d := cleanDescriptionB d0
              if 3 ≤ d.length then
                match validateAndCorrectItem hash (String.mk d) q1 u t with
                | some it => (some q1, items ++ [it])
                | none => (some q1, items)
              else (some q1, items)
        match searchTks xFormatPat lineClean with
        | some (_, _, [g1, g2, g3]) =>
          (match parseFloatTok g1 with
           | none => (qs, items)
           | some u =>
             let qn := PyNum.pint (digitsToNat g2)
             match parseFloatTok g3 with
             | none => (some qn, items)
             | some t => tail (some qn) u t)
        | _ =>
          match searchMulti unitPricePats lineClean, searchMulti totalPricePats lineClean with
          | some (_, _, gu :: _), some (_, _, gt :: _) =>
            (match parseFloatTok gu, parseFloatTok gt with
             | some u, some t => tail qs u t
             | _, _ => (qs, items))
          | _, _ =>
            match parseFloatTok (amounts.headD []), parseFloatTok (amounts.getLastD []) with
            | some u, some t => tail qs u t
            | _, _ => (qs, items)
      else
        -- single numeric token: unit price with quantity 1
        match parseFloatTok (amounts.headD []) with
        | none => (qs, items)
        | some u =>
          let t := u
          match descBeforeDollar lineClean with
          | none => (qs, items)
          | some d0 =>
            let d := cleanDescriptionB d0
            if 3 ≤ d.length then
              match validateAndCorrectItem hash (String.mk d) (PyNum.pint 1) u t with
              | some it => (qs, items ++ [it])
              | none => (qs, items)
            else (qs, items)
  else (qs, items)

/-- Python `_intelligent_item_extraction`: the single-long-line branch splits on
`Item:` sections; otherwise each line is processed in turn. -/
def intelligentExtraction (hash : String → ℤ) (text : List Char) : List RawItem :=
  let lines := splitNl text
  if lines.length = 1 ∧ 200 < (lines.headD []).length then
    match splitToks itemSplitPat (lines.headD []) with
    | [] => []
    | _ :: sections => sections.foldl processSectionA []
  else
    (lines.foldl (processLineB hash) (none, [])).2

/-! ## The pattern-matching fallback strategy of `_extract_items` -/

/-- Class `[A-Za-z0-9\s\-]`. -/
def itemDescCh (c : Char) : Bool :=
  isAlphaCh c || isDigitCh c || isWsChar c || c = '-'

/-- Class `[A-Z0-9\-]` under `re.IGNORECASE`. -/
def skuCh (c : Char) : Bool := isAlphaCh c || isDigitCh c || c = '-'

/-- Lazy description group `([A-Za-z0-9\s\-]+?)`. -/
def descLazy1 : PTok := PTok.prun itemDescCh 1 true true

/-- The twelve `item_patterns` of `_extract_items`, in priority order
(all searched with `re.IGNORECASE`). -/
def itemPatterns : List (List PTok) :=
  [ [litCI "Item:", wsRun0, descLazy1, wsRun0, litCI "-", wsRun0, optDollar,
     PTok.pamt true, wsRun0, litCI "x", wsRun0, digRun1 true, wsRun0,
     litCI "=", wsRun0, optDollar, PTok.pamt true],
    [litCI "Item:", wsRun0, descLazy1, wsRun0, litCI "-", wsRun0,
     digRun1 true, wsRun0, litCI "x", wsRun0, optDollar, PTok.pamt true,
     wsRun0, litCI "=", wsRun0, optDollar, PTok.pamt true],
    [descLazy1, wsRun0, litCI "-", wsRun0, optDollar, PTok.pamt true, wsRun0,
     litCI "x", wsRun0, digRun1 true, wsRun0, litCI "=", wsRun0, optDollar,
     PTok.pamt true],
    [descLazy1, wsRun0, litCI "-", wsRun0, digRun1 true, wsRun0, litCI "x",
     wsRun0, optDollar, PTok.pamt true, wsRun0, litCI "=", wsRun0, optDollar,
     PTok.pamt true],
    [descLazy1, wsRun0, optDollar, PTok.pamt true, wsRun0, litCI "x", wsRun0,
     digRun1 true, wsRun0, optDollar, PTok.pamt true],
    [descLazy1, wsRun0, digRun1 true, wsRun0, litCI "x", wsRun0, optDollar,
     PTok.pamt true, wsRun0, optDollar, PTok.pamt true],
    [PTok.prun skuCh 1 false true, wsRun1, descLazy1, wsRun1, digRun1 true,
     wsRun1, optDollar, PTok.pamt true],
    [descLazy1, wsRun1, digRun1 true, wsRun1, optDollar, PTok.pamt true],
    [descLazy1, wsRun0, litCI "-", wsRun0, digRun1 true, wsRun0, litCI "x",
     wsRun0, optDollar, PTok.pamt true],
    [descLazy1, wsRun0, litCI ":", wsRun0, digRun1 true, wsRun0, litCI "@",
     wsRun0, optDollar, PTok.pamt true],
    [descLazy1, wsRun1, optDollar, PTok.pamt true, wsRun0, PTok.pend],
    [PTok.prun itemDescCh 3 true true, wsRun0, optDollar, PTok.pamt true] ]

/-- The stop words of the pattern-matching fallback strategy. -/
def skipWordsPat : List String :=
  ["extract", "look for", "choose", "recommendation", "unitprice",
   "vendor", "supplier", "quote", "total", "subtotal"]

/-- Build the candidate item from one pattern match, dispatching on the group
count exactly as the source does; `none` models a `ValueError` from
`int`/`float` or a `_validate_item_values` rejection, both of which move on
to the next pattern. -/
def itemFromGroups (lineClean : List Char) (itemsLen : ℕ) :
    List (List Char) → Option RawItem
  | [g0, g1, g2, g3] =>
    if hasSubstr "Item:".toList lineClean then
      match parseFloatTok g1, parseIntTok g2, parseFloatTok g3 with
      | some u, some q, some t =>
        let d := pyStrip g0
        if validateItemValues q u d then
          some { sku := "ITEM-" ++ pad3 (itemsLen + 1), description := String.mk d,
                 quantity := (q : ℚ), unitPrice := u,
                 deliveryTime := "7-10 days", total := t }
        else none
      | _, _, _ => none
    else
      match parseIntTok g2, parseFloatTok g3 with
      | some q, some u =>
        let d := pyStrip g1
        if validateItemValues q u d then
          some { sku := String.mk (pyStrip g0), description := String.mk d,
                 quantity := (q : ℚ), unitPrice := u,
                 deliveryTime := "7-10 days", total := (q : ℚ) * u }
        else none
      | _, _ => none
  | [g0, g1, g2] =>
    match parseIntTok g1, parseFloatTok g2 with
    | some q, some u =>
      let d := pyStrip g0
      if validateItemValues q u d then
        some { sku := "ITEM-" ++ pad3 (itemsLen + 1), description := String.mk d,
               quantity := (q : ℚ), unitPrice := u,
               deliveryTime := "7-10 days", total := (q : ℚ) * u }
      else none
    | _, _ => none
  | [g0, g1] =>
    match parseFloatTok g1 with
    | some u =>
      let d := pyStrip g0
      if validateItemValues 1 u d then
        some { sku := "ITEM-" ++ pad3 (itemsLen + 1), description := String.mk d,
               quantity := 1, unitPrice := u,
               deliveryTime := "7-10 days", total := u }
      else none
    | _ => none
  | _ => none

/-- Try the twelve patterns on a line; the first pattern that matches and
parses and validates produces the item. -/
def tryPatternsOnLine (lineClean : List Char) (itemsLen : ℕ) : Option RawItem :=
  itemPatterns.findSome? (fun p =>
    match searchTks p lineClean with
    | none => none
    | some (_, _, caps) => itemFromGroups lineClean itemsLen caps)

/-- The pattern-matching fallback loop of `_extract_items`, with its
`matched_lines` set and line-level skip rules. -/
def patternExtraction (text : List Char) : List RawItem :=
  ((splitNl text).foldl
    (fun (st : List (List Char) × List RawItem) line =>
      let matched := st.1
      let items := st.2
      let lc := pyStrip line
      if lc.isEmpty || matched.contains lc then (matched, items)
      else if skipWordsPat.any (fun w => hasSubstr w.toList (lowStr lc)) then
        (matched, items)
      else if lc.length < 5 || 200 < lc.length then (matched, items)
      else
        match tryPatternsOnLine lc items.length with
        | some it => (lc :: matched, items ++ [it])
        | none => (matched, items))
    ([], [])).2

/-! ## `_deduplicate_items` and `_extract_items` -/

/-- The grouping key of `_deduplicate_items`. -/
def dedupKey (it : RawItem) : List Char × ℚ :=
  (lowStr (pyStrip it.description.toList), round2 it.unitPrice)

/-- Insert an item into the insertion-ordered group list: quantities and
totals are summed, the other fields are overwritten by the last member. -/
def dedupInsert (k : List Char × ℚ) (it : RawItem) :
    List ((List Char × ℚ) × RawItem) → List ((List Char × ℚ) × RawItem)
  | [] =>
    [(k, { sku := it.sku, description := it.description, quantity := it.quantity,
           unitPrice := it.unitPrice, deliveryTime := it.deliveryTime,
           total := it.total })]
  | (k', g) :: rest =>
    if k' = k then
      (k', { g with sku := it.sku, description := it.description,
                    unitPrice := it.unitPrice, deliveryTime := it.deliveryTime,
                    quantity := g.quantity + it.quantity,
                    total := g.total + it.total }) :: rest
    else (k', g) :: dedupInsert k it rest

/-- Python `_deduplicate_items`. -/
def dedupItems (items : List RawItem) : List RawItem :=
  (items.foldl (fun acc it => dedupInsert (dedupKey it) it acc) []).map (fun e => e.2)

/-- Python `_extract_items`: the intelligent strategy runs first and its non-empty
result is returned immediately; otherwise the pattern strategy's non-empty
result is returned immediately; `_deduplicate_items` is reached only with an
empty list. -/
def extractItems (hash : String → ℤ) (text : List Char) : List RawItem :=
  let i1 := intelligentExtraction hash text
  if ¬ i1.isEmpty then i1
  else
    let p := patternExtraction text
    if ¬ p.isEmpty then p
    else dedupItems []

/-! ## `_extract_vendor_name` -/

/-- Class `[A-Za-z0-9\s&.,\-]`. -/
def vendorCls (c : Char) : Bool :=
  isAlphaCh c || isDigitCh c || isWsChar c || c = '&' || c = '.' || c = ',' || c = '-'

/-- Python `\w`: a word character (ASCII). -/
def isWordCh (c : Char) : Bool := isAlphaCh c || isDigitCh c || c = '_'

/-- Class `[a-z_]` of the filename patterns (searched on the lower-cased name). -/
def lowUndCh (c : Char) : Bool := ('a' ≤ c && c ≤ 'z') || c = '_'

/-- The group-1 candidates of the six `vendor_patterns`, in pattern order.
The text reaching this resolver has been cleaned, hence contains no newline,
so the `re.MULTILINE` anchors of the last two patterns reduce to the string
start, matched in place. -/
def vendorCandidates (t : List Char) : List (List Char) :=
  let grp := fun (r : Option (ℕ × ℕ × List (List Char))) =>
    match r with
    | some (_, _, g :: _) => some g
    | _ => none
  let grpAt := fun (r : Option (ℕ × List (List Char))) =>
    match r with
    | some (_, g :: _) => some g
    | _ => none
  ([ grp (searchTks [PTok.prun vendorCls 1 false true, wsRun1, litCI "Quote"] t),
     grp (searchTks [litCI "Quote", wsRun1, PTok.prun vendorCls 1 false true] t),
     grp (searchTks [PTok.prun vendorCls 1 false true, wsRun1,
       PTok.palt1 ["Inc", "Corp", "LLC", "Ltd", "Company", "Pvt", "Co"] true] t),
     grp (searchTks [PTok.prun vendorCls 1 false true, wsRun1,
       PTok.palt1 ["Supplies", "Office", "Solutions", "Systems"] true] t),
     grpAt (matchToks [PTok.prun vendorCls 1 false true, wsRun0, PTok.pend] t),
     grpAt (matchToks [PTok.prun vendorCls 1 false true, wsRun1, litCI "Date"] t)
   ]).filterMap id

/-- Python `_is_valid_vendor_name`. -/
def isValidVendorName (name : List Char) : Bool :=
  if name.isEmpty || name.length < 2 then false
  else if !name.isEmpty && name.all isDigitCh then false
  else if !name.isEmpty && name.all (fun c => isAlphaCh c || isWsChar c) then false
  else if (["extract", "look for", "choose", "recommendation", "unitprice",
            "vendor", "supplier", "quote", "total", "date", "time", "payment",
            "warranty"] : List String).any
      (fun w => hasSubstrCI w.toList name) then false
  else if (pyStrip name).length < 3 then false
  else true

/-- Python `re.sub(r'\b(Quote|Proposal|Bid|Vendor)\b', '', s, re.IGNORECASE)`:
delete the listed words when flanked by word boundaries, resuming after each
deletion; `prev` is the original character before the scan position. -/
def subWordBoundedAux (words : List String) : ℕ → Option Char → List Char → List Char
  | 0, _, s => s
  | _ + 1, _, [] => []
  | fuel + 1, prev, c :: cs =>
    let leftOk := match prev with
      | none => true
      | some p => ¬ isWordCh p
    let hit := if leftOk then
        words.findSome? (fun w =>
          let wl := w.toList
          if startsWithCI wl (c :: cs) then
            let rest := (c :: cs).drop wl.length
            if match rest with
               | [] => true
               | r :: _ => ¬ isWordCh r then
              some wl.length
            else none
          else none)
      else none
    match hit with
    | some k =>
      subWordBoundedAux words fuel (some ((c :: cs).getD (k - 1) c)) (cs.drop (k - 1))
    | none => c :: subWordBoundedAux words fuel (some c) cs

/-- Word-boundary deletion of the listed words. -/
def subWordBounded (words : List String) (s : List Char) : List Char :=
  subWordBoundedAux words s.length none s

/-- Pattern `str.rsplit('.', 1)[0]`: everything before the last dot, or the whole
string when there is none. -/
def beforeLastDot (s : List Char) : List Char :=
  if s.contains '.' then
    (((s.reverse).dropWhile (fun c => c ≠ '.')).drop 1).reverse
  else s

/-- Python `_extract_vendor_from_filename`. -/
def extractVendorFromFilename (filename : String) : String :=
  let nameL := lowStr (beforeLastDot filename.toList)
  let pats : List (List PTok) :=
    [ [PTok.plit "vendor_" false, PTok.prun lowUndCh 1 false true],
      [PTok.prun lowUndCh 1 false true, PTok.plit "_quote" false],
      [PTok.prun lowUndCh 1 false true, PTok.plit "_proposal" false],
      [PTok.prun lowUndCh 1 false true, PTok.plit "_bid" false] ]
  let result := pats.findSome? (fun p =>
    match searchTks p nameL with
    | some (_, _, g :: _) =>
      let vendorName := pyTitle (g.map (fun c => if c = '_' then ' ' else c))
      let cleaned := pyStrip (subWordBounded ["Quote", "Proposal", "Bid", "Vendor"] vendorName)
      if cleaned.isEmpty then none else some cleaned
    | _ => none)
  match result with
  | some v => String.mk v
  | none => "Unknown"

/-- Python `_extract_vendor_name`: filename first, then the text patterns, then the
first plausible of the first three lines, then final cleanup/truncation. -/
def extractVendorName (t : List Char) (filename : String) : String :=
  let fromFile :=
    if filename ≠ "" then
      let fv := extractVendorFromFilename filename
      if fv ≠ "" ∧ fv ≠ "Unknown" then some fv else none
    else none
  match fromFile with
  | some v => v
  | none =>
    let fromPattern := (vendorCandidates t).map pyStrip |>.find? isValidVendorName
    let vn :=
      match fromPattern with
      | some c => c
      | none =>
        match ((splitNl t).take 3).findSome? (fun l =>
            let lc := pyStrip l
            if ¬ lc.isEmpty ∧ 3 < lc.length ∧ isValidVendorName lc then some lc
            else none) with
        | some lc => lc
        | none => "Unknown Vendor".toList
    let vn := pyStrip vn
    let vn := if ¬ isValidVendorName vn then "Unknown Vendor".toList else vn
    if 50 < vn.length then String.mk (vn.take 50) ++ "..." else String.mk vn

/-! ## `_analyze_quote_with_nlp` -/

/-- The analysis result: the parsed JSON object produced by
`_analyze_quote_with_nlp` (an `analysis_note` key is present exactly on the
no-item paths; `major_corrections` is absent when the list is empty). -/
structure NlpResult where
  vendorName : String
  items : List RawItem
  payment : String
  warranty : String
  note : Option String
  majorCorrections : List MathCorrectionM
deriving Repr, DecidableEq

/-- Python `_analyze_quote_with_nlp`: clean, classify, resolve vendor, detect
currency, extract and convert items, collect major corrections, extract
terms.  `hash` stands for Python's process-randomized string hash, used only
for generated SKUs. -/
def nlpAnalyze (hash : String → ℤ) (text filename : String) : NlpResult :=
  let ct := cleanQuoteText text.toList
  let dt := detectDocumentType ct
  if dt ≠ "quote" then
    { vendorName := "Document Type: " ++ String.mk (pyTitle dt.toList),
      items := [], payment := "N/A", warranty := "N/A",
      note := some ("This appears to be a " ++ dt ++
        ", not a vendor quote. Please upload a vendor quote for analysis."),
      majorCorrections := [] }
  else
    let vn := extractVendorName ct filename
    let cur := detectCurrency ct
    let items0 := extractItems hash ct
    let items1 := if cur ≠ "" ∧ cur ≠ baseCurrency then convertCurrency items0 cur else items0
    if items1.isEmpty then
      { vendorName := vn, items := [], payment := "N/A", warranty := "N/A",
        note := some ("No pricing information could be extracted. " ++
          "Please ensure this is a vendor quote with itemized pricing."),
        majorCorrections := [] }
    else
      let corrections := items1.filterMap (fun it => it.correctionInfo)
      let items2 := items1.map (fun it => { it with correctionInfo := none })
      let terms := extractTerms ct
      { vendorName := vn, items := items2, payment := terms.1,
        warranty := terms.2, note := none, majorCorrections := corrections }

/-! ## `currency_handler.normalize_quote_items` -/

/-- An item dict as seen by `CurrencyHandler.normalize_quote_items`
(only the keys that method reads or writes; a missing key is `none`). -/
structure NormItem where
  unitPrice : Option ℚ
  total : Option ℚ
  currency : Option String
  originalUnitPrice : Option ℚ := none
  originalCurrency : Option String := none
  originalTotal : Option ℚ := none
  exchangeRate : Option ℚ := none
deriving Repr, DecidableEq

/-- The static exchange-rate column of `CurrencyHandler.currency_patterns`. -/
def ratesCH : List (String × ℚ) :=
  [("USD", 1), ("EUR", 27/25), ("GBP", 63/50), ("CAD", 37/50),
   ("AUD", 33/50), ("JPY", 67/10000)]

/-- Pattern `normalize_quote_items` on one item: a present, truthy (non-zero)
`unitPrice`/`total` in a currency different from the target is multiplied by
the static rate, retaining the original values and currency for audit; the
original currency is read from the un-modified input item in both blocks. -/
def normalizeQuoteItem (item : NormItem) (target : String) : NormItem :=
  let ni := item
  let ni :=
    match item.unitPrice with
    | some p =>
      if p ≠ 0 then
        let oc := item.currency.getD "USD"
        let ni :=
          if oc ≠ target then
            let rate := (ratesCH.lookup oc).getD 1
            { ni with unitPrice := some (p * rate), originalUnitPrice := some p,
                      originalCurrency := some oc, exchangeRate := some rate }
          else ni
        { ni with currency := some target }
      else ni
    | none => ni
  match item.total with
  | some t =>
    if t ≠ 0 then
      let oc := item.currency.getD "USD"
      let ni :=
        if oc ≠ target then
          let rate := (ratesCH.lookup oc).getD 1
          { ni with total := some (t * rate), originalTotal := some t }
        else ni
      { ni with currency := some target }
    else ni
  | none => ni

/-- Pattern `normalize_quote_items`. -/
def normalizeQuoteItems (items : List NormItem) (target : String) : List NormItem :=
  items.map (fun it => normalizeQuoteItem it target)

/-! ## Obfuscation detector -/

/-- A finalized `QuoteItem` (`models.QuoteItem`: quantity is an `int`). -/
structure FinalItem where
  sku : String
  description : String
  quantity : ℤ
  unitPrice : ℚ
  deliveryTime : String
  total : ℚ
deriving Repr, DecidableEq

/-- The core `hidden_fees` patterns, each `word\s+word`. -/
def hiddenFeesPats : List (List String) :=
  [["handling", "fee"], ["processing", "charge"], ["administrative", "fee"],
   ["service", "charge"], ["convenience", "fee"], ["transaction", "fee"],
   ["setup", "fee"], ["activation", "fee"], ["restocking", "fee"],
   ["cancellation", "fee"], ["management", "fee"], ["maintenance", "fee"],
   ["support", "fee"], ["licensing", "fee"], ["subscription", "fee"]]

/-- The core `bundled_pricing` patterns. -/
def bundledPats : List (List String) :=
  [["package", "deal"], ["bundle", "price"], ["all", "inclusive"],
   ["comprehensive", "pricing"], ["total", "solution"], ["complete", "package"],
   ["suite", "pricing"], ["enterprise", "package"]]

/-- The core `volume_discounts` patterns (detected but not scored by
`analyze_quote`). -/
def volumePats : List (List String) :=
  [["tier", "pricing"], ["volume", "discount"], ["quantity", "break"],
   ["bulk", "pricing"], ["scale", "pricing"], ["threshold", "pricing"]]

/-- The core `conditional_pricing` patterns. -/
def conditionalPats : List (List String) :=
  [["subject", "to"], ["depending", "on"], ["may", "vary"],
   ["estimated", "price"], ["approximate", "cost"], ["plus", "applicable"],
   ["additional", "charges", "may", "apply"],
   ["prices", "subject", "to", "change"], ["market", "conditions"],
   ["availability", "may", "affect", "pricing"]]

/-- The core `complex_structures` patterns. -/
def complexPats : List (List String) :=
  [["base", "price", "plus"], ["core", "pricing", "plus"],
   ["minimum", "order", "value"], ["subscription", "model"],
   ["recurring", "charges"], ["monthly", "fee"], ["annual", "maintenance"],
   ["per", "user", "pricing"], ["usage", "based", "pricing"]]

/-- Compile a `word\s+word\s+...` pattern. -/
def wordSeqToks : List String → List PTok
  | [] => []
  | [w] => [litCI w]
  | w :: rest => litCI w :: wsRun1 :: wordSeqToks rest

/-- Python `_detect_adaptive_patterns` for one core category, with the learned
pattern store in its initial state (the side file absent at startup, so every
learned list is empty and fuzzy matching contributes nothing): the core
patterns that match the lower-cased text, in order. -/
def detectPatterns (pats : List (List String)) (t : List Char) : List (List String) :=
  let tl := lowStr t
  pats.filter (fun p => (searchTks (wordSeqToks p) tl).isSome)

/-- Pattern `(\d+\.?\d*)` of the contextual uncertainty patterns. -/
def numToks : List PTok :=
  [digRun1 false, PTok.popt (fun c => c = '.'), PTok.prun isDigitCh 0 false false]

/-- The currency-word alternation of the uncertainty patterns
(`USD|dollars?|â‚¬|euros?`, longer plural first to mirror the greedy `s?`). -/
def curAlt : PTok :=
  PTok.palt1 ["usd", "dollars", "dollar", "â‚¬", "euros", "euro"] true

/-- The hedge-word alternation. -/
def hedgeAlt : PTok :=
  PTok.palt1 ["approximately", "about", "around", "roughly", "estimated"] true

/-- Python `_detect_contextual_obfuscation`: one entry per uncertainty pattern with
matches and one per fine-print pattern that matches, on the raw text with
`re.IGNORECASE`. -/
def detectContextual (t : List Char) : List String :=
  let found := fun (tag : String) (pats : List (List PTok)) =>
    if (searchMulti pats t).isSome then [tag] else []
  found "uncertainty1" [numToks ++ [wsRun0, curAlt, wsRun0, hedgeAlt]] ++
  found "uncertainty2" [[hedgeAlt, wsRun0] ++ numToks ++ [wsRun0, curAlt]] ++
  found "uncertainty3"
    [[PTok.palt1 ["price", "cost", "fee"] true, wsRun1,
      PTok.palt1 ["may", "might", "could"] true, wsRun1,
      PTok.palt1 ["vary", "change", "differ"] true]] ++
  found "uncertainty4"
    [[PTok.palt1 ["final", "total"] true, wsRun1,
      PTok.palt1 ["price", "cost"] true, wsRun1, litCI "to", wsRun1,
      litCI "be", wsRun1, PTok.palt1 ["determined", "calculated"] true],
     [PTok.palt1 ["final", "total"] true, wsRun1,
      PTok.palt1 ["price", "cost"] true, wsRun1, litCI "will", wsRun1,
      litCI "be", wsRun1, PTok.palt1 ["determined", "calculated"] true]] ++
  found "fineprint1"
    [[PTok.palt1 ["terms", "conditions", "details"] true, wsRun1, litCI "apply"],
     [PTok.palt1 ["terms", "conditions", "details"] true, wsRun1, litCI "may",
      wsRun1, litCI "apply"],
     [PTok.palt1 ["terms", "conditions", "details"] true, wsRun1,
      litCI "subject", wsRun1, litCI "to"],
     [litCI "fine", wsRun1, litCI "print", wsRun1, litCI "apply"],
     [litCI "fine", wsRun1, litCI "print", wsRun1, litCI "may", wsRun1,
      litCI "apply"],
     [litCI "fine", wsRun1, litCI "print", wsRun1, litCI "subject", wsRun1,
      litCI "to"]] ++
  found "fineprint2"
    [[litCI "see", wsRun1,
      PTok.palt1 ["terms", "conditions", "schedule", "appendix"] true],
     [litCI "refer", wsRun1, litCI "to", wsRun1,
      PTok.palt1 ["terms", "conditions", "schedule", "appendix"] true]] ++
  found "fineprint3"
    [[PTok.palt1 ["additional", "extra", "other"] true, wsRun1,
      PTok.palt1 ["charges", "fees", "costs"] true, wsRun1,
      PTok.palt1 ["may", "will"] true, wsRun1,
      PTok.palt1 ["apply", "incur"] true]]

/-- The `suspicious_indicators` list. -/
def suspiciousIndicators : List String :=
  ["TBD", "TBA", "To be determined", "To be advised", "Call for pricing",
   "Contact sales", "Quote required", "Market rate", "Current market",
   "Prevailing rate", "Negotiable", "Flexible pricing", "Custom quote"]

/-- Python `_detect_suspicious_items`: zero/negative price, extreme price, and
placeholder delivery text. -/
def detectSuspiciousItems (items : List FinalItem) : List (String × String) :=
  items.flatMap (fun it =>
    (if it.unitPrice ≤ 0 then [(it.description, "Zero or negative unit price")] else []) ++
    (if 10000 < it.unitPrice then
      [(it.description, "Extremely high unit price (possible placeholder)")] else []) ++
    (if it.deliveryTime ≠ "" ∧
        suspiciousIndicators.any
          (fun ind => hasSubstr (lowStr ind.toList) (lowStr it.deliveryTime.toList)) then
      [(it.description, "Suspicious delivery time")] else []))

/-- Python `_detect_pricing_inconsistencies`: for fewer than two items nothing is
reported; otherwise extreme price spread (>100×) and unexplained bulk
discounts over 50 percent. -/
def detectPricingInconsistencies (items : List FinalItem) : List String :=
  if items.length < 2 then []
  else
    let prices := (items.filter (fun it => 0 < it.unitPrice)).map (fun it => it.unitPrice)
    let priceVar :=
      if 2 ≤ prices.length then
        let minP := prices.foldl min (prices.headD 0)
        let maxP := prices.foldl max (prices.headD 0)
        let ratio := if 0 < minP then maxP / minP else 0
        if 100 < ratio then ["extreme_price_variation"] else []
      else []
    let bulk := items.flatMap (fun it =>
      if 1 < it.quantity ∧ 0 < it.unitPrice then
        let expectedTotal := (it.quantity : ℚ) * it.unitPrice
        if 1/100 < |expectedTotal - it.total| then
          let discountPercentage := (expectedTotal - it.total) / expectedTotal * 100
          if 50 < discountPercentage then ["unusual_bulk_discount"] else []
        else []
      else [])
    priceVar ++ bulk

/-- The obfuscation report (the fields the settled properties concern). -/
structure ObfReport where
  riskLevel : String
  riskScore : ℕ
  totalRiskFactors : ℕ
deriving Repr, DecidableEq

/-- Pattern `ObfuscationDetector.analyze_quote` with the learned store in its initial
(empty) state: per-category point weights 30/20/25/35 for the scored pattern
families, 20 for contextual indicators, 40 for suspicious items, 15 for
inconsistencies; capped at 100; level high at 70, medium at 40. -/
def analyzeQuoteObf (items : List FinalItem) (rawText : String) : ObfReport :=
  let t := rawText.toList
  let hidden := detectPatterns hiddenFeesPats t
  let bundled := detectPatterns bundledPats t
  let conditional := detectPatterns conditionalPats t
  let complexStruct := detectPatterns complexPats t
  let contextual := detectContextual t
  let suspicious := detectSuspiciousItems items
  let inconsistencies := detectPricingInconsistencies items
  let parts : List ℕ :=
    [if ¬ hidden.isEmpty then 30 else 0,
     if ¬ bundled.isEmpty then 20 else 0,
     if ¬ conditional.isEmpty then 25 else 0,
     if ¬ complexStruct.isEmpty then 35 else 0,
     if ¬ contextual.isEmpty then 20 else 0,
     if ¬ suspicious.isEmpty then 40 else 0,
     if ¬ inconsistencies.isEmpty then 15 else 0]
  let score := parts.foldl (· + ·) 0
  let factors := (parts.filter (fun p => p ≠ 0)).length
  let finalScore := min 100 score
  let level :=
    if 70 ≤ finalScore then "high"
    else if 40 ≤ finalScore then "medium"
    else "low"
  { riskLevel := level, riskScore := finalScore, totalRiskFactors := factors }

/-! ## Math validator: `_check_bulk_pricing_patterns` -/

/-- Pattern `MathValidator.rounding_tolerance`. -/
def mathRoundingTolerance : ℚ := 1/100

/-- Pattern `MathValidator.thresholds["large_discount"]` (the source comment reads
"50% discount"). -/
def mathLargeDiscountThreshold : ℚ := 1/2

/-- Python `_check_bulk_pricing_patterns`: for each multi-unit, positively priced
item whose stated total differs from quantity×unitPrice beyond the rounding
tolerance, computes the discount as a 0–100 percentage and emits a
`large_bulk_discount` warning when that percentage exceeds
`thresholds["large_discount"]`. -/
def checkBulkPricingPatterns (items : List FinalItem) : List (String × ℚ) :=
  items.flatMap (fun it =>
    if 1 < it.quantity ∧ 0 < it.unitPrice then
      let expectedTotal := (it.quantity : ℚ) * it.unitPrice
      let actualTotal := it.total
      if mathRoundingTolerance < |expectedTotal - actualTotal| then
        let discountPercentage := (expectedTotal - actualTotal) / expectedTotal * 100
        if mathLargeDiscountThreshold < discountPercentage then
          [(it.description, discountPercentage)]
        else []
      else []
    else [])

/-! ## Concrete inputs used by the settled properties -/

/-- A stand-in for Python's process-randomized string hash; only the text of
generated SKUs depends on it, and no settled property mentions a SKU built
from it. -/
def hash0 : String → ℤ := fun _ => 0

/-- The end-to-end input of the spec's testable property for C1. -/
def textC1 : String :=
  "Item: Office Chair - $125.00 x 50 = $6250.00\nItem: Desk Lamp - $45.00 x 100 = $4500.00\nPayment: Net 30"

/-- Five repetitions of one item line: 234 characters, so the cleaned text is
a single line longer than 200 characters and the single-long-line branch
runs; all five sections carry the same description and unit price. -/
def textC4 : String :=
  "Item: Blue Widget Gadget - $10.00 x 2 = $20.00 Item: Blue Widget Gadget - $10.00 x 2 = $20.00 Item: Blue Widget Gadget - $10.00 x 2 = $20.00 Item: Blue Widget Gadget - $10.00 x 2 = $20.00 Item: Blue Widget Gadget - $10.00 x 2 = $20.00"

/-- Seven repetitions of an item line whose description is the digit string
`12345`; 224 characters, so the single-long-line branch runs. -/
def textC6 : String :=
  "Item: 12345 $10.00 x 2 = $20.00 Item: 12345 $10.00 x 2 = $20.00 Item: 12345 $10.00 x 2 = $20.00 Item: 12345 $10.00 x 2 = $20.00 Item: 12345 $10.00 x 2 = $20.00 Item: 12345 $10.00 x 2 = $20.00 Item: 12345 $10.00 x 2 = $20.00"

/-- An invoice-looking text with no receipt indicator and no quote keyword. -/
def textC9invoice : String := "invoice number 001 bill to Acme Corp"

/-- An invoice-looking text that also contains the receipt indicator
`paid` (and still no quote keyword). -/
def textC9receipt : String := "invoice number 001 bill to Acme paid"

/-- A raw text matching exactly three hidden-fee phrases and nothing else. -/
def rawHiddenFees : String := "handling fee processing charge setup fee"

/-- A quote item with unit price zero. -/
def zeroPriceItem : FinalItem :=
  { sku := "SKU1", description := "Widget", quantity := 1, unitPrice := 0,
    deliveryTime := "7 days", total := 0 }

/-- An item sold at a 1 percent bulk discount: 2 × $100.00 with stated total
$198.00. -/
def bulkDiscountItem : FinalItem :=
  { sku := "W-1", description := "Widget", quantity := 2, unitPrice := 100,
    deliveryTime := "", total := 198 }

/-- An item priced 100 EUR (with stated total 100) entering the currency
normalizer. -/
def eurItem100 : NormItem :=
  { unitPrice := some 100, total := some 100, currency := some "EUR" }

/-! ## Claim C1 -/

unseal Rat.add Rat.mul Rat.inv Rat.sub in
/-- Claim C1 is false as stated: on the two-item input text the extraction
entry point returns a quote that does not have exactly two items (text
cleaning collapses the newlines, and the intelligent strategy extracts only
the first `price x qty = total` match of the resulting single line). -/
theorem c1_counterexample : (nlpAnalyze hash0 textC1 "").items.length ≠ 2 := by
  decide

unseal Rat.add Rat.mul Rat.inv Rat.sub in
/-- Claim C1 (amended): on the C1 input text the pipeline returns exactly one
item — description `"Office Chair -"`, quantity 50, unit price 125.00, total
6250.00, from the first `price x qty = total` match of the
whitespace-collapsed text — and `terms.payment == "Net 30"`; the second item
(total 4500.00) is lost. -/
theorem c1_single_item :
    ((nlpAnalyze hash0 textC1 "").items.map
      (fun i => (i.description, i.quantity, i.unitPrice, i.total)) =
      [("Office Chair -", (50 : ℚ), (125 : ℚ), (6250 : ℚ))]) ∧
    (nlpAnalyze hash0 textC1 "").payment = "Net 30" := by
  decide

/-! ## Claim C2 -/

unseal Rat.add Rat.mul Rat.inv Rat.sub in
/-- Claim C2 is false as stated: the candidate (description "Office Chair",
quantity 1, unit price 100, stated total 104) passes the Item Validator &
Corrector with its 4 percent discrepancy left in place, and 4 exceeds the
claimed bound max(0.01, 0.01·quantity·unitPrice) = 1. -/
theorem c2_counterexample :
    ((validateAndCorrectItem hash0 "Office Chair" (PyNum.pint 1) 100 104).map
      (fun it => (it.quantity, it.unitPrice, it.total)) =
      some ((1 : ℚ), (100 : ℚ), (104 : ℚ))) ∧
    ¬ |(104 : ℚ) - 1 * 100| ≤ max (1/100) (1/100 * (1 * 100)) := by
  decide

/-! ## Claim C4 -/

unseal Rat.add Rat.mul Rat.inv Rat.sub in
/-- Claim C4 is false as stated: the five extracted candidates share one
normalized description and unit price, yet the returned quote contains all
five of them separately (quantity 2 and total 20 each), not a single
collapsed item. -/
theorem c4_counterexample :
    ((nlpAnalyze hash0 textC4 "").items.map
      (fun i => (i.description, i.quantity, i.unitPrice, i.total)) =
      List.replicate 5 ("Blue Widget Gadget -", (2 : ℚ), (10 : ℚ), (20 : ℚ))) ∧
    (nlpAnalyze hash0 textC4 "").items.length ≠ 1 := by
  decide

unseal Rat.add Rat.mul Rat.inv Rat.sub in
/-- Claim C4 (amended): duplicate candidates are returned uncollapsed — the
quote for the five-fold repeated line carries five items — while the
deduplication helper itself, which the extraction path only ever applies to
an empty list, would indeed have collapsed them into a single item with the
summed quantity 10 and total 100. -/
theorem c4_duplicates_not_collapsed :
    (nlpAnalyze hash0 textC4 "").items.length = 5 ∧
    (dedupItems ((nlpAnalyze hash0 textC4 "").items)).map
      (fun i => (i.description, i.quantity, i.total)) =
      [("Blue Widget Gadget -", (10 : ℚ), (100 : ℚ))] := by
  decide

/-! ## Facts about the validator, shared by C2 and C6 -/

theorem validateItemValues_spec {n : ℤ} {u : ℚ} {d : List Char}
    (h : validateItemValues n u d = true) :
    0 < n ∧ n ≤ 100000 ∧ 0 < u ∧ u ≤ 100000 ∧ 2 ≤ d.length ∧ pyIsDigit d = false := by
  unfold validateItemValues at h
  split_ifs at h with h1 h2 h3
  push_neg at h1 h2 h3
  simp only [Bool.not_eq_true] at h3
  exact ⟨h1.1, h1.2, h2.1, h2.2, h3.1, h3.2⟩

/-- An item accepted by `_validate_and_correct_item` carries the validated
integral quantity, the input description and unit price, and a total that is
the stated total unless the relative error exceeded 5 percent, in which case
it is quantity × unitPrice. -/
theorem validateAndCorrectItem_spec (hash : String → ℤ) (d : String)
    (q : PyNum) (u t : ℚ) (it : RawItem)
    (h : validateAndCorrectItem hash d q u t = some it) :
    ∃ n : ℤ, validateItemValues n u d.toList = true ∧
      it.description = d ∧ it.quantity = (n : ℚ) ∧ it.unitPrice = u ∧
      it.total =
        (if 5 < |t - (n : ℚ) * u| / |(n : ℚ) * u| * 100 then (n : ℚ) * u else t) := by
  unfold validateAndCorrectItem at h
  have main : ∀ n : ℤ,
      (if n ≤ 0 ∨ 100000 < n then none
       else if u < -100000 ∨ 100000 < u then none
       else if d.length < 2 then none
       else
         let expectedTotal : ℚ := (n : ℚ) * u
         let discrepancy := |t - expectedTotal|
         let percentageError : ℚ :=
           if expectedTotal ≠ 0 then discrepancy / |expectedTotal| * 100 else 0
         let corr : Option MathCorrectionM :=
           if 20 < percentageError then
             some { item := d, originalTotal := t, correctedTotal := expectedTotal,
                    errorPercentage := percentageError }
           else none
         let total' := if 5 < percentageError then expectedTotal else t
         if ¬ validateItemValues n u d.toList then none
         else some { sku := skuOfHash hash d, description := d,
                     quantity := (n : ℚ), unitPrice := u,
                     deliveryTime := "7-10 days", total := total',
                     correctionInfo := corr }) = some it →
      ∃ n' : ℤ, validateItemValues n' u d.toList = true ∧
        it.description = d ∧ it.quantity = (n' : ℚ) ∧ it.unitPrice = u ∧
        it.total =
          (if 5 < |t - (n' : ℚ) * u| / |(n' : ℚ) * u| * 100 then (n' : ℚ) * u else t) := by
    intro n hn
    by_cases c1 : n ≤ 0 ∨ 100000 < n
    · simp [c1] at hn
    by_cases c2 : u < -100000 ∨ 100000 < u
    · simp [c1, c2] at hn
    by_cases c3 : d.length < 2
    · simp [c1, c2, c3] at hn
    by_cases c4 : validateItemValues n u d.toList = true
    · obtain ⟨-, -, hu0, -, -, -⟩ := validateItemValues_spec c4
      have hn0 : 0 < n := (validateItemValues_spec c4).1
      have he : ((n : ℚ) * u) ≠ 0 :=
        ne_of_gt (mul_pos (by exact_mod_cast hn0) hu0)
      simp only [if_neg c1, if_neg c2, if_neg c3,
        if_neg (not_not_intro c4)] at hn
      have hrec := Option.some.inj hn
      subst hrec
      refine ⟨n, c4, rfl, rfl, rfl, ?_⟩
      dsimp only
      rw [if_pos he]
    · rw [if_neg c1, if_neg c2, if_neg c3] at hn
      rw [if_pos c4] at hn
      cases hn
  cases q with
  | pint n => exact main n h
  | pfloat f =>
    dsimp only at h
    by_cases c0 : f < 1/10
    · rw [if_pos c0] at h
      exact Option.noConfusion h
    · rw [if_neg c0] at h
      exact main (pyRound f) h

/-! ## Claim C2 (amended theorem and witness) -/

/-- Claim C2 (amended): every candidate accepted by the Item Validator &
Corrector leaves with a total within 5 percent of quantity × unitPrice (the
corrector overwrites the total only beyond a 5 percent relative error, so up
to 5 percent — not the claimed 1 percent or 1 cent — may remain). -/
theorem c2_accepted_within_five_percent (hash : String → ℤ) (d : String)
    (q : PyNum) (u t : ℚ) (it : RawItem)
    (h : validateAndCorrectItem hash d q u t = some it) :
    |it.total - it.quantity * it.unitPrice| ≤ 5/100 * (it.quantity * it.unitPrice) := by
  obtain ⟨n, hv, hd, hq, hu, htot⟩ := validateAndCorrectItem_spec hash d q u t it h
  obtain ⟨hn0, -, hu0, -, -, -⟩ := validateItemValues_spec hv
  have hnq : (0 : ℚ) < (n : ℚ) := by exact_mod_cast hn0
  have he0 : (0 : ℚ) < (n : ℚ) * u := mul_pos hnq hu0
  rw [hq, hu, htot]
  split_ifs with hc
  · simp only [sub_self, abs_zero]
    positivity
  · push_neg at hc
    rw [abs_of_pos he0] at hc
    have h1 : |t - (n : ℚ) * u| / ((n : ℚ) * u) ≤ 5 / 100 := by linarith
    calc |t - (n : ℚ) * u| = |t - (n : ℚ) * u| / ((n : ℚ) * u) * ((n : ℚ) * u) := by
          field_simp
      _ ≤ 5 / 100 * ((n : ℚ) * u) :=
          mul_le_mul_of_nonneg_right h1 (le_of_lt he0)

unseal Rat.add Rat.mul Rat.inv Rat.sub in
/-- Witness for the amended C2: a concrete accepted candidate satisfies the
5 percent bound. -/
theorem c2_accepted_within_five_percent_witness :
    validateAndCorrectItem hash0 "Widget" (PyNum.pint 2) 10 20 =
      some { sku := "ITEM-000", description := "Widget", quantity := 2,
             unitPrice := 10, deliveryTime := "7-10 days", total := 20 } ∧
    |(20 : ℚ) - 2 * 10| ≤ 5/100 * (2 * 10) := by
  constructor
  · decide
  · have := c2_accepted_within_five_percent hash0 "Widget" (PyNum.pint 2) 10 20
      { sku := "ITEM-000", description := "Widget", quantity := 2,
        unitPrice := 10, deliveryTime := "7-10 days", total := 20 }
      (by decide)
    simpa using this

/-! ## Claim C6 (counterexample above; amended theorem and witness) -/

/-- Claim C6 (amended): the invariant holds for every candidate accepted
through the Item Validator & Corrector — quantity a positive integer at most
100000, description of length at least 2 and not purely numeric — while
items appended by the single-long-line branch bypass that validator (see the
counterexample). -/
theorem c6_validator_invariant (hash : String → ℤ) (d : String)
    (q : PyNum) (u t : ℚ) (it : RawItem)
    (h : validateAndCorrectItem hash d q u t = some it) :
    (∃ n : ℤ, it.quantity = (n : ℚ) ∧ 0 < n ∧ n ≤ 100000) ∧
    2 ≤ it.description.toList.length ∧
    pyIsDigit it.description.toList = false := by
  obtain ⟨n, hv, hd, hq, hu, -⟩ := validateAndCorrectItem_spec hash d q u t it h
  obtain ⟨hn0, hn1, -, -, hlen, hdig⟩ := validateItemValues_spec hv
  subst hd
  exact ⟨⟨n, hq, hn0, hn1⟩, hlen, hdig⟩

unseal Rat.add Rat.mul Rat.inv Rat.sub in
/-- Witness for the amended C6: a concrete accepted candidate satisfies the
invariant. -/
theorem c6_validator_invariant_witness :
    validateAndCorrectItem hash0 "Gadget Pro" (PyNum.pint 3) 5 15 =
      some { sku := "ITEM-000", description := "Gadget Pro", quantity := 3,
             unitPrice := 5, deliveryTime := "7-10 days", total := 15 } ∧
    ((∃ n : ℤ, ((3 : ℚ)) = (n : ℚ) ∧ 0 < n ∧ n ≤ 100000) ∧
     2 ≤ "Gadget Pro".toList.length ∧ pyIsDigit "Gadget Pro".toList = false) := by
  constructor
  · decide
  · have := c6_validator_invariant hash0 "Gadget Pro" (PyNum.pint 3) 5 15
      { sku := "ITEM-000", description := "Gadget Pro", quantity := 3,
        unitPrice := 5, deliveryTime := "7-10 days", total := 15 }
      (by decide)
    simpa using this

/-! ## Claim C5 -/

/-- Claim C5 names a code bug: the validator's own negative-price gate admits
unit price −50 (with the comment "Allow negative unit prices for
discounts"), but the final `_validate_item_values` check rejects every
non-positive unit price, so the candidate (description "Discount item",
quantity 1, unit price −50, total −50) is rejected. -/
theorem c5_negative_price_rejected (hash : String → ℤ) :
    validateAndCorrectItem hash "Discount item" (PyNum.pint 1) (-50) (-50) = none := by
  rfl

/-! ## Claim C6 -/

unseal Rat.add Rat.mul Rat.inv Rat.sub in
/-- Claim C6 is false as stated: the single-long-line branch appends items
without the validator, so the returned quote carries seven items whose
description `"12345"` is purely numeric. -/
theorem c6_counterexample :
    (nlpAnalyze hash0 textC6 "").items.map
      (fun i => (i.description, pyIsDigit i.description.toList)) =
      List.replicate 7 ("12345", true) := by
  decide

/-! ## Claim C3 -/

/-- Claim C3: an analysis result with an empty items list always carries an
explanatory note.  The embedding is a total function — every exception path
of the source is caught inside the analysis — so the entry point never
raises, and the fabricated-item fallback quote is reachable only from a
raised exception, hence never returned. -/
theorem c3_empty_items_note (hash : String → ℤ) (text filename : String)
    (h : (nlpAnalyze hash text filename).items = []) :
    (nlpAnalyze hash text filename).note.isSome = true := by
  unfold nlpAnalyze at h ⊢
  by_cases h1 : detectDocumentType (cleanQuoteText text.toList) ≠ "quote"
  · rw [if_pos h1]
    rfl
  · rw [if_neg h1] at h ⊢
    dsimp only at h ⊢
    by_cases h2 :
        (if detectCurrency (cleanQuoteText text.toList) ≠ "" ∧
            detectCurrency (cleanQuoteText text.toList) ≠ baseCurrency then
          convertCurrency (extractItems hash (cleanQuoteText text.toList))
            (detectCurrency (cleanQuoteText text.toList))
        else extractItems hash (cleanQuoteText text.toList)).isEmpty = true
    · rw [if_pos h2]
      rfl
    · rw [if_neg h2] at h ⊢
      dsimp only at h
      exact absurd (by rw [List.isEmpty_iff]; exact List.map_eq_nil_iff.mp h) h2

unseal Rat.add Rat.mul Rat.inv Rat.sub in
/-- Witness for C3: the empty input extracts nothing and the result carries
the explanatory no-pricing note. -/
theorem c3_empty_items_note_witness :
    (nlpAnalyze hash0 "" "").items = [] ∧
    (nlpAnalyze hash0 "" "").note.isSome = true :=
  ⟨by decide, c3_empty_items_note hash0 "" "" (by decide)⟩

/-! ## Claim C7 -/

unseal Rat.add Rat.mul Rat.inv Rat.sub in
/-- Claim C7: normalizing an item priced 100 EUR (total 100) against base
currency USD multiplies by the static EUR rate 1.08 = 27/25, giving unit
price 108.00 (within ±0.01, exactly in the rational model) and retaining
`original_currency == "EUR"` with the original unit price and total for
audit. -/
theorem c7_eur_normalized_with_audit :
    (normalizeQuoteItems [eurItem100] "USD" =
      [{ unitPrice := some 108, total := some 108, currency := some "USD",
         originalUnitPrice := some 100, originalCurrency := some "EUR",
         originalTotal := some 100, exchangeRate := some (27/25) }]) ∧
    |(108 : ℚ) - 108| ≤ 1/100 := by
  decide

/-! ## Claim C8 -/

/-- Claim C8: whenever the raw text matches exactly three distinct hidden-fee
phrases and no other scored pattern family or contextual indicator, and the
quote holds one item with unit price zero, the detector scores
30 (hidden fees) + 40 (suspicious items) = 70, so `risk_score ≥ 70` and
`risk_level == "high"`. -/
theorem c8_three_hidden_fees_zero_price_high (raw : String) (it : FinalItem)
    (hh : (detectPatterns hiddenFeesPats raw.toList).length = 3)
    (hb : detectPatterns bundledPats raw.toList = [])
    (hc : detectPatterns conditionalPats raw.toList = [])
    (hx : detectPatterns complexPats raw.toList = [])
    (hctx : detectContextual raw.toList = [])
    (hz : it.unitPrice = 0) :
    70 ≤ (analyzeQuoteObf [it] raw).riskScore ∧
    (analyzeQuoteObf [it] raw).riskLevel = "high" := by
  have hhne : (detectPatterns hiddenFeesPats raw.toList).isEmpty = false := by
    cases hl : detectPatterns hiddenFeesPats raw.toList with
    | nil => rw [hl] at hh; cases hh
    | cons a l => rfl
  have hsus : (detectSuspiciousItems [it]).isEmpty = false := by
    unfold detectSuspiciousItems
    simp [hz]
  have hinc : detectPricingInconsistencies [it] = [] := by
    unfold detectPricingInconsistencies
    norm_num
  unfold analyzeQuoteObf
  dsimp only
  rw [hb, hc, hx, hctx, hinc, hhne, hsus]
  norm_num

unseal Rat.add Rat.mul Rat.inv Rat.sub in
/-- Witness for C8: a raw text matching exactly the hidden-fee phrases
"handling fee", "processing charge" and "setup fee", together with one
zero-priced item, is scored high risk. -/
theorem c8_three_hidden_fees_zero_price_high_witness :
    ((detectPatterns hiddenFeesPats rawHiddenFees.toList).length = 3 ∧
     detectPatterns bundledPats rawHiddenFees.toList = [] ∧
     detectPatterns conditionalPats rawHiddenFees.toList = [] ∧
     detectPatterns complexPats rawHiddenFees.toList = [] ∧
     detectContextual rawHiddenFees.toList = [] ∧
     zeroPriceItem.unitPrice = 0) ∧
    70 ≤ (analyzeQuoteObf [zeroPriceItem] rawHiddenFees).riskScore ∧
    (analyzeQuoteObf [zeroPriceItem] rawHiddenFees).riskLevel = "high" :=
  ⟨⟨by decide, by decide, by decide, by decide, by decide, by decide⟩,
   c8_three_hidden_fees_zero_price_high rawHiddenFees zeroPriceItem
     (by decide) (by decide) (by decide) (by decide) (by decide) (by decide)⟩

/-! ## Claim C9 -/

theorem startsWithL_drop (p q s : List Char)
    (h : startsWithL (p ++ q) s = true) : startsWithL p s = true := by
  induction p generalizing s with
  | nil => rfl
  | cons a as ih =>
    cases s with
    | nil => cases h
    | cons c cs =>
      simp only [List.cons_append, startsWithL, Bool.and_eq_true] at h ⊢
      exact ⟨h.1, ih cs h.2⟩

theorem hasSubstr_mono (p q s : List Char)
    (h : hasSubstr (p ++ q) s = true) : hasSubstr p s = true := by
  induction s with
  | nil =>
    simp only [hasSubstr] at h ⊢
    exact startsWithL_drop p q [] h
  | cons c cs ih =>
    simp only [hasSubstr, Bool.or_eq_true] at h ⊢
    rcases h with h | h
    · exact Or.inl (startsWithL_drop p q _ h)
    · exact Or.inr (ih h)

unseal Rat.add Rat.mul Rat.inv Rat.sub in
/-- Claim C9 is false as stated: this text contains "invoice number" and
"bill to" and no quote keyword, yet the classifier — which checks receipt
indicators first — sees "paid" and labels it a receipt, so the note mentions
"receipt" and never "invoice" (the items are still empty). -/
theorem c9_counterexample :
    strContains textC9receipt "invoice number" = true ∧
    strContains textC9receipt "bill to" = true ∧
    quoteIndicators.all
      (fun k => !(hasSubstr k.toList (lowStr textC9receipt.toList))) = true ∧
    (nlpAnalyze hash0 textC9receipt "").items = [] ∧
    (nlpAnalyze hash0 textC9receipt "").note =
      some "This appears to be a receipt, not a vendor quote. Please upload a vendor quote for analysis." ∧
    hasSubstr "invoice".toList
      "This appears to be a receipt, not a vendor quote. Please upload a vendor quote for analysis.".toList = false := by
  decide

/-- Claim C9 (amended): for every input whose cleaned text matches no receipt
indicator and contains "invoice number" (hence the invoice indicator
"invoice") — "bill to" may be present as the claim assumes but is not needed
— the pipeline classifies the document as an invoice and short-circuits:
items are empty and the note mentions "invoice". -/
theorem c9_invoice_note (hash : String → ℤ) (text filename : String)
    (hrec : receiptIndicators.any
      (fun i => hasSubstr i.toList (lowStr (cleanQuoteText text.toList))) = false)
    (hinv : hasSubstr "invoice number".toList
      (lowStr (cleanQuoteText text.toList)) = true) :
    (nlpAnalyze hash text filename).items = [] ∧
    ∃ s, (nlpAnalyze hash text filename).note = some s ∧
      hasSubstr "invoice".toList s.toList = true := by
  have hinv1 : hasSubstr "invoice".toList
      (lowStr (cleanQuoteText text.toList)) = true := by
    have he : ("invoice number".toList : List Char) =
        "invoice".toList ++ " number".toList := by decide
    exact hasSubstr_mono _ _ _ (he ▸ hinv)
  have hdt : detectDocumentType (cleanQuoteText text.toList) = "invoice" := by
    unfold detectDocumentType
    dsimp only
    rw [hrec]
    have hinvany : invoiceIndicators.any
        (fun i => hasSubstr i.toList (lowStr (cleanQuoteText text.toList))) = true := by
      unfold invoiceIndicators
      simp only [List.any_cons, Bool.or_eq_true]
      exact Or.inl hinv1
    rw [hinvany]
    simp
  unfold nlpAnalyze
  dsimp only
  rw [hdt]
  rw [if_pos (show ("invoice" : String) ≠ "quote" from by decide)]
  exact ⟨rfl,
    ⟨"This appears to be a " ++ "invoice" ++
      ", not a vendor quote. Please upload a vendor quote for analysis.",
     rfl, by decide⟩⟩

unseal Rat.add Rat.mul Rat.inv Rat.sub in
/-- Witness for the amended C9: the concrete invoice text (with "bill to"
present and no receipt indicator) yields empty items and an invoice note. -/
theorem c9_invoice_note_witness :
    (receiptIndicators.any (fun i =>
       hasSubstr i.toList (lowStr (cleanQuoteText textC9invoice.toList))) = false ∧
     hasSubstr "invoice number".toList
       (lowStr (cleanQuoteText textC9invoice.toList)) = true ∧
     hasSubstr "bill to".toList
       (lowStr (cleanQuoteText textC9invoice.toList)) = true) ∧
    ((nlpAnalyze hash0 textC9invoice "").items = [] ∧
     ∃ s, (nlpAnalyze hash0 textC9invoice "").note = some s ∧
       hasSubstr "invoice".toList s.toList = true) :=
  ⟨⟨by decide, by decide, by decide⟩,
   c9_invoice_note hash0 textC9invoice "" (by decide) (by decide)⟩

/-! ## Claim C10 -/

unseal Rat.add Rat.mul Rat.inv Rat.sub in
/-- Claim C10 names a code bug: the bulk-discount check compares the 0–100
discount percentage against `thresholds["large_discount"] = 0.50`, whose own
comment reads "50% discount"; so the item 2 × $100.00 with stated total
$198.00 — a 1 percent discount, well under 50 percent — already triggers a
`large_bulk_discount` warning. -/
theorem c10_warning_at_one_percent :
    checkBulkPricingPatterns [bulkDiscountItem] = [("Widget", 1)] ∧
    ¬ (50 : ℚ) < 1 := by
  decide

end AutoProcure
